import Mathlib

/-!
Shallow embedding of the NarrativeSphereAI core: the directed network
topology (`src/common/base.py`), the message envelope and manager
(`src/common/base.py`), the node dissemination/evaluation/commit pipeline
(`src/graph/node.py`), and the world-state aggregate (`src/graph/state.py`).

Python conventions mirrored here:
* JSON-representable values become the inductive `JVal`; Python `dict`s
  keyed by strings become insertion-ordered association lists with
  first-key-wins lookup and replace-or-append assignment, matching CPython
  dict semantics.
* Fallible operations (a `networkx` `remove_edge` on a missing edge, a
  constructor call missing a required argument, indexing a missing key)
  return `Except String` values.
* Randomness (`random.random()`) is an injected stream `draws : Nat → Rat`
  consumed one value per call site, with draws in `[0, 1)`.
* Machine floats in the source are modelled as rationals.
* `uuid4()` / `datetime.now()` results are modelled as explicit `now` /
  identifier parameters where a claim mentions them and are omitted where
  no claim observes them.
-/

namespace NarrativeSphere

/-- JSON-like runtime values (Python str/float/list/dict and JSON null). -/
inductive JVal where
  | null
  | str (s : String)
  | num (q : ℚ)
  | arr (xs : List JVal)
  | obj (fields : List (String × JVal))

/-- A Python string-keyed dict, as an insertion-ordered association list. -/
abbrev Dict := List (String × JVal)

/-- Python `d[k]` lookup result: the first (unique, for real dicts) binding. -/
def dictGet (d : Dict) (k : String) : Option JVal :=
  match d with
  | [] => none
  | (k', v) :: rest => if k' = k then some v else dictGet rest k

/-- Python `d[k] = v`: replace the binding in place, else append at the end. -/
def dictSet (d : Dict) (k : String) (v : JVal) : Dict :=
  match d with
  | [] => [(k, v)]
  | (k', v') :: rest => if k' = k then (k, v) :: rest else (k', v') :: dictSet rest k v

/-- The `networkx.DiGraph` state observed by this code: an insertion-ordered
node list and an insertion-ordered directed edge list. -/
structure DiGraph where
  nodes : List String
  edges : List (String × String)
deriving DecidableEq, Repr

/-- A fresh `nx.DiGraph()`. -/
def DiGraph.empty : DiGraph := ⟨[], []⟩

def DiGraph.hasNode (g : DiGraph) (n : String) : Bool := decide (n ∈ g.nodes)

/-- Method `graph.has_edge(s, e)`. -/
def DiGraph.has_edge (g : DiGraph) (s e : String) : Bool := decide ((s, e) ∈ g.edges)

/-- networkx silently registers an endpoint as a node when it first appears. -/
def DiGraph.addNode (g : DiGraph) (n : String) : DiGraph :=
  if g.hasNode n then g else { g with nodes := g.nodes ++ [n] }

/-- Method `graph.add_nodes_from(ns)`. -/
def DiGraph.add_nodes_from (g : DiGraph) (ns : List String) : DiGraph :=
  ns.foldl DiGraph.addNode g

/-- Method `graph.add_edge(s, e)`: registers missing endpoints as nodes, then adds
the edge when absent (networkx never duplicates an edge). -/
def DiGraph.add_edge (g : DiGraph) (s e : String) : DiGraph :=
  let g1 := (g.addNode s).addNode e
  if g1.has_edge s e then g1 else { g1 with edges := g1.edges ++ [(s, e)] }

/-- Method `graph.remove_edge(s, e)`: raises `NetworkXError` when the edge is absent. -/
def DiGraph.remove_edge (g : DiGraph) (s e : String) : Except String DiGraph :=
  if g.has_edge s e then
    .ok { g with edges := g.edges.filter (fun p => p ≠ (s, e)) }
  else
    .error "NetworkXError: the edge is not in the graph"

/-- Python `itertools.permutations(l, 2)`: every ordered pair of entries at two
distinct positions, enumerated in lexicographic position order. -/
def allOrderedPairs (l : List String) : List (String × String) :=
  (l.enum.map (fun a => l.enum.filterMap
    (fun b => if a.1 = b.1 then none else some (a.2, b.2)))).flatten

/-- Source `BaseNetwork` (src/common/base.py): the agent list, the edge-generation
probability and the owned `nx.DiGraph`.  The `uuid` attribute is observed by
no claim and is omitted. -/
structure BaseNetwork where
  agent_ids : List String
  p : ℚ
  graph : DiGraph
deriving DecidableEq, Repr

/-- The loop body of `BaseNetwork.generate_random_digraph`: walk the ordered
pairs; skip a pair outright when the reverse edge is present (no random draw
is consumed), otherwise consume one draw and add the edge when it is `≤ p`.
The counter `i` indexes the next unconsumed draw. -/
def genLoop (p : ℚ) (draws : ℕ → ℚ) :
    List (String × String) → DiGraph → ℕ → DiGraph
  | [], g, _ => g
  | (s, e) :: rest, g, i =>
    if g.has_edge e s then genLoop p draws rest g i
    else if draws i ≤ p then genLoop p draws rest (g.add_edge s e) (i + 1)
    else genLoop p draws rest g (i + 1)

/-- Source `BaseNetwork.generate_random_digraph` applied to the stored graph. -/
def BaseNetwork.generate_random_digraph (net : BaseNetwork) (draws : ℕ → ℚ) :
    BaseNetwork :=
  { net with graph := genLoop net.p draws (allOrderedPairs net.agent_ids) net.graph 0 }

/-- Source `BaseNetwork.__init__(agent_ids, p)`: an empty digraph over `agent_ids`,
then `generate_random_digraph` with the injected random stream. -/
def BaseNetwork.init (agent_ids : List String) (p : ℚ) (draws : ℕ → ℚ) :
    BaseNetwork :=
  BaseNetwork.generate_random_digraph
    { agent_ids := agent_ids, p := p, graph := DiGraph.empty.add_nodes_from agent_ids }
    draws

/-- Source `BaseNetwork.disconnect_edge`: remove the edge when present, else no-op. -/
def BaseNetwork.disconnect_edge (net : BaseNetwork) (start fin : String) :
    BaseNetwork :=
  if net.graph.has_edge start fin then
    { net with graph :=
        { net.graph with edges := net.graph.edges.filter (fun p => p ≠ (start, fin)) } }
  else net

/-- Source `BaseNetwork.connect_edge`: add the edge when absent, else no-op.  Note
that only the `(start, fin)` direction is checked, never the reverse. -/
def BaseNetwork.connect_edge (net : BaseNetwork) (start fin : String) :
    BaseNetwork :=
  if net.graph.has_edge start fin then net
  else { net with graph := net.graph.add_edge start fin }

/-- Source `BaseNetwork.reverse_edge`: `remove_edge(start, fin)` (raising when the
edge is absent) followed by `add_edge(fin, start)`.  The Python method
returns `None`. -/
def BaseNetwork.reverse_edge (net : BaseNetwork) (start fin : String) :
    Except String BaseNetwork :=
  (net.graph.remove_edge start fin).map
    (fun g => { net with graph := g.add_edge fin start })

/-- Source `BaseNetwork.execute(start, end, method, action)`: gate the mutation on
`method(start, end, action)`.  The Python return value is `None`
(modelled `none`) for an applied reverse — it forwards the result of
`reverse_edge` — `True` (`some true`) for an applied connect/disconnect, and
`False` (`some false`) when the predicate declines; an unknown action
raises `ValueError` only after the predicate approves. -/
def BaseNetwork.execute (net : BaseNetwork) (start fin : String)
    (method : String → String → String → Bool) (action : String) :
    Except String (Option Bool × BaseNetwork) :=
  if method start fin action then
    if action = "reverse" then
      (net.reverse_edge start fin).map (fun net' => (none, net'))
    else if action = "disconnect" then
      .ok (some true, net.disconnect_edge start fin)
    else if action = "connect" then
      .ok (some true, net.connect_edge start fin)
    else
      .error ("ValueError: Unknown action: " ++ action)
  else
    .ok (some false, net)

/-- A sequence of `execute` calls threaded through the `Except` monad,
each call given by its `(start, fin, action)` arguments. -/
def BaseNetwork.executeSeq (net : BaseNetwork)
    (method : String → String → String → Bool) :
    List (String × String × String) → Except String BaseNetwork
  | [] => .ok net
  | (s, f, a) :: rest => do
    let r ← net.execute s f method a
    BaseNetwork.executeSeq r.2 method rest

/-- Source `BaseMessage` (src/common/base.py): sender, receiver, type tag, content
and the construction timestamp.  `__init__` accepts a `contribution_metric`
parameter but assigns no corresponding attribute, so the type has no such
field.  Message content is modelled as a string-keyed dict, the shape the
pipeline reads and writes (`content["importance"]`). -/
structure BaseMessage where
  sender : String
  receiver : String
  message_type : String
  content : Dict
  timestamp : String

/-- Source `BaseMessage.__init__`: `datetime.now().isoformat()` is the injected
`now`; the `contribution_metric` argument is accepted and discarded. -/
def BaseMessage.init (sender receiver message_type : String) (content : Dict)
    (contribution_metric : ℚ) (now : String) : BaseMessage :=
  { sender := sender, receiver := receiver, message_type := message_type,
    content := content, timestamp := now }

/-- A Python call of `BaseMessage(...)` with each parameter either supplied
or absent.  `sender`, `receiver`, `message_type` and `content` have no
default, so a call leaving any of them unsupplied raises `TypeError`;
`contribution_metric` defaults to `0.0`. -/
def BaseMessage.initCall (sender? receiver? message_type? : Option String)
    (content? : Option Dict) (now : String) : Except String BaseMessage :=
  match sender?, receiver?, message_type?, content? with
  | some s, some r, some t, some c => .ok (BaseMessage.init s r t c 0 now)
  | _, _, _, _ =>
      .error "TypeError: BaseMessage.__init__ missing a required positional argument"

/-- Source `BaseMessage.to_json`: the five serialized fields, in source order.
Serialization is modelled at the JSON-value level; `json.dumps`/`json.loads`
are mutually inverse on these values. -/
def BaseMessage.to_json (m : BaseMessage) : JVal :=
  .obj [("sender", .str m.sender), ("receiver", .str m.receiver),
        ("message_type", .str m.message_type), ("content", .obj m.content),
        ("timestamp", .str m.timestamp)]

/-- Source `BaseMessage.from_json`: reads `sender`, `receiver`, `message_type` and
`content` (a missing key raises `KeyError`) and calls the constructor, which
assigns a fresh timestamp; the serialized timestamp is dropped. -/
def BaseMessage.from_json (j : JVal) (now : String) : Except String BaseMessage :=
  match j with
  | .obj d =>
    match dictGet d "sender", dictGet d "receiver",
          dictGet d "message_type", dictGet d "content" with
    | some (.str s), some (.str r), some (.str t), some (.obj c) =>
        .ok (BaseMessage.init s r t c 0 now)
    | _, _, _, _ => .error "KeyError: missing required message field"
  | _ => .error "TypeError: not a JSON object"

/-- Source `MessageManager` (src/common/base.py). -/
structure MessageManager where
  messages : List BaseMessage

def MessageManager.initEmpty : MessageManager := ⟨[]⟩

def MessageManager.add_message (mm : MessageManager) (m : BaseMessage) :
    MessageManager :=
  { messages := mm.messages ++ [m] }

def MessageManager.get_messages (mm : MessageManager) : List BaseMessage :=
  mm.messages

/-- Python `getattr(m, "contribution_metric", 0)`: `BaseMessage.__init__` never
stores a `contribution_metric` attribute, so on any `BaseMessage` the lookup
always yields the fallback. -/
def BaseMessage.getattrContributionMetric (_m : BaseMessage) (fallback : ℚ) : ℚ :=
  fallback

/-- Source `MessageManager.filter_by_metric(threshold)`: keep the buffered messages
whose metric attribute (with fallback `0`) is `≥ threshold`. -/
def MessageManager.filter_by_metric (mm : MessageManager) (threshold : ℚ) :
    List BaseMessage :=
  mm.messages.filter (fun m => m.getattrContributionMetric 0 ≥ threshold)

def MessageManager.clear_messages (_mm : MessageManager) : MessageManager :=
  ⟨[]⟩

/-- Modelled from the spec: `Broadcast` (imported from the absent
`src/common/broadcast.py`) is the BroadcastChannel — an ordered buffer of
in-flight message envelopes plus the associated topologies; `Node.__init__`
builds it as `Broadcast([], [base_network])`. -/
structure Broadcast where
  messages : List BaseMessage
  networks : List BaseNetwork

/-- Modelled from the spec: `chain.Chain` (the absent HistoryLog
collaborator) is an append-only log consumed here only through the
`add_block(message)` contract. -/
structure Chain where
  blocks : List BaseMessage

/-- The `add_block` contract: append-only. -/
def Chain.add_block (c : Chain) (m : BaseMessage) : Chain :=
  { blocks := c.blocks ++ [m] }

/-- Source `Node` (src/graph/node.py). -/
structure Node where
  base_network : BaseNetwork
  broadcast : Broadcast
  chain : Chain
  p : ℚ
  node_id : String

/-- Source `Node.__init__`: fresh empty channel over the one topology, fresh chain. -/
def Node.init (bn : BaseNetwork) (p : ℚ) (node_id : String) : Node :=
  { base_network := bn, broadcast := { messages := [], networks := [bn] },
    chain := { blocks := [] }, p := p, node_id := node_id }

/-- The loop of `Node.broadcast_messages`: for each node of the topology
consume one random draw; when it is `< p`, evaluate the constructor call
`BaseMessage(sender="CentralNod", receiver=node, content=messagee.content)`
— which supplies no `message_type` — and append the result. -/
def broadcastLoop (p : ℚ) (draws : ℕ → ℚ) (content : Dict) (now : String) :
    List String → ℕ → List BaseMessage → Except String (List BaseMessage)
  | [], _, acc => .ok acc
  | node :: rest, i, acc =>
    if draws i < p then
      match BaseMessage.initCall (some "CentralNod") (some node) none
          (some content) now with
      | .ok m => broadcastLoop p draws content now rest (i + 1) (acc ++ [m])
      | .error err => .error err
    else broadcastLoop p draws content now rest (i + 1) acc

/-- Source `Node.broadcast_messages(messagee)` with the injected random stream. -/
def Node.broadcast_messages (n : Node) (draws : ℕ → ℚ) (messagee : BaseMessage)
    (now : String) : Except String Node :=
  (broadcastLoop n.p draws messagee.content now n.base_network.graph.nodes 0
      n.broadcast.messages).map
    (fun ms => { n with broadcast := { n.broadcast with messages := ms } })

/-- Source `Node.evaluate_messages`: for every buffered message, write the external
collaborator score into its content as `content["importance"]`. -/
def Node.evaluate_messages (n : Node) (evaluate : Dict → ℚ) : Node :=
  { n with broadcast :=
    { n.broadcast with messages :=
        (n.broadcast.messages.map (fun m => { m with
          content := dictSet m.content "importance" (.num (evaluate m.content)) })) } }

/-- The loop of `Node.cherrypick_messages`: read `content["importance"]`
(`KeyError` when absent, `TypeError` when not a number) and `add_block`
the message when the score strictly exceeds `0.5`. -/
def cherryLoop (c : Chain) : List BaseMessage → Except String Chain
  | [] => .ok c
  | m :: rest =>
    match dictGet m.content "importance" with
    | some (.num q) =>
        if q > 0.5 then cherryLoop (c.add_block m) rest else cherryLoop c rest
    | some _ => .error "TypeError: comparison not supported between these types"
    | none => .error "KeyError: importance"

/-- Source `Node.cherrypick_messages`: commits into the chain; the broadcast buffer
is read, never written. -/
def Node.cherrypick_messages (n : Node) : Except String Node :=
  (cherryLoop n.chain n.broadcast.messages).map (fun c => { n with chain := c })

/-- Source `WorldState` (src/graph/state.py): the five stored attributes, each a
JSON-representable value. -/
structure WorldState where
  base_network : JVal
  global_events : JVal
  local_events : JVal
  agent_states : JVal
  global_motifs : JVal

/-- Source `WorldState.__init__`: the statement
`self.base_network = base_network(agent_list) if base_network is not None else {}`
calls its `base_network` argument.  A JSON value (what `from_json` passes) is
not callable, so any non-`None` `base_network` raises `TypeError` here; with
`None` the attribute defaults to the empty dict.  (A genuinely callable
argument would escape the JSON model only to make `to_json` fail instead,
since its result is not JSON-serializable.)  The remaining four arguments
default to empty lists when `None`. -/
def WorldState.init (agent_list : Option (List String)) (base_network : Option JVal)
    (global_events local_events agent_states global_motifs : Option JVal) :
    Except String WorldState :=
  match base_network with
  | some _ => .error "TypeError: base_network object is not callable"
  | none =>
    .ok { base_network := .obj [],
          global_events := global_events.getD (.arr []),
          local_events := local_events.getD (.arr []),
          agent_states := agent_states.getD (.arr []),
          global_motifs := global_motifs.getD (.arr []) }

/-- Source `WorldState.to_json`: the five fields, in source order. -/
def WorldState.to_json (w : WorldState) : JVal :=
  .obj [("base_network", w.base_network), ("global_events", w.global_events),
        ("local_events", w.local_events), ("agent_states", w.agent_states),
        ("global_motifs", w.global_motifs)]

/-- Python `data.get(k, dflt)` as used by `WorldState.from_json`: the stored value
when the key is present (a stored JSON `null` is Python `None`), else the
default. -/
def pyDictGetD (d : Dict) (k : String) (dflt : JVal) : Option JVal :=
  match dictGet d k with
  | some .null => none
  | some v => some v
  | none => some dflt

/-- Source `WorldState.from_json`: read the five fields with empty-collection
defaults and call the constructor (`agent_list` is left at its `None`
default). -/
def WorldState.from_json (j : JVal) : Except String WorldState :=
  match j with
  | .obj d =>
      WorldState.init none (pyDictGetD d "base_network" (.obj []))
        (pyDictGetD d "global_events" (.arr []))
        (pyDictGetD d "local_events" (.arr []))
        (pyDictGetD d "agent_states" (.arr []))
        (pyDictGetD d "global_motifs" (.arr []))
  | _ => .error "TypeError: not a JSON object"

/-- The no-bidirectional-pair property on an edge list: for any two distinct
agents, at most one of the two directed edges between them is present. -/
def noBidirL (es : List (String × String)) : Prop :=
  ∀ e ∈ es, e.1 ≠ e.2 → (e.2, e.1) ∉ es

/-- The topology invariant claimed by the spec: no bidirectional edge pair
between distinct agents. -/
def noBidir (g : DiGraph) : Prop := noBidirL g.edges

instance (es : List (String × String)) : Decidable (noBidirL es) :=
  List.decidableBAll _ es

instance (g : DiGraph) : Decidable (noBidir g) :=
  inferInstanceAs (Decidable (noBidirL g.edges))

/-- The commit guard of `cherrypick_messages`, as a Boolean on a message:
its `content["importance"]` is a number strictly above `0.5`. -/
def importanceAbove (m : BaseMessage) : Bool :=
  match dictGet m.content "importance" with
  | some (.num q) => decide (q > 0.5)
  | _ => false

/-! Concrete inputs used by counterexamples and witnesses. -/

/-- A two-agent network built with `p = 0`, hence with no edges. -/
def cNetEmpty : BaseNetwork := BaseNetwork.init ["a", "b"] 0 (fun _ => 1)

/-- Network `cNetEmpty` after `connect_edge("a", "b")`: the single edge `a→b`. -/
def cNetAB : BaseNetwork := cNetEmpty.connect_edge "a" "b"

/-- A one-agent network with no edges. -/
def cNetA : BaseNetwork := BaseNetwork.init ["a"] 0 (fun _ => 1)

/-- Network `cNetA` after `connect_edge("a", "a")`: a reachable self-loop. -/
def cNetLoop : BaseNetwork := cNetA.connect_edge "a" "a"

/-- The network produced by `cNetAB.reverse_edge("a", "b")`. -/
def cNetRev : BaseNetwork := ((cNetAB.reverse_edge "a" "b").toOption).getD cNetEmpty

/-- The network produced by `cNetLoop.reverse_edge("a", "a")`. -/
def cNetLoopRev : BaseNetwork :=
  ((cNetLoop.reverse_edge "a" "a").toOption).getD cNetEmpty

def cMsgSrc : BaseMessage :=
  BaseMessage.init "alice" "bob" "global_event" [("text", .str "hello")] 0 "t0"

def cMsgHigh : BaseMessage :=
  BaseMessage.init "CentralNod" "a" "broadcast" [("importance", .num 0.9)] 0 "t1"

def cMsgLow : BaseMessage :=
  BaseMessage.init "CentralNod" "b" "broadcast" [("importance", .num 0.4)] 0 "t2"

/-- A node over `cNetA` with dissemination probability `1`. -/
def cNode1 : Node := Node.init cNetA 1 "n0"

/-- A node over `cNetA` with dissemination probability `0`. -/
def cNode0 : Node := Node.init cNetA 0 "n1"

/-- A node whose channel buffers one high- and one low-importance message. -/
def cNodeEval : Node :=
  { base_network := cNetA,
    broadcast := { messages := [cMsgHigh, cMsgLow], networks := [cNetA] },
    chain := { blocks := [] }, p := 1, node_id := "n2" }

/-- A constant external scorer. -/
def cEval : Dict → ℚ := fun _ => 0.7

def cMgr : MessageManager := MessageManager.initEmpty.add_message cMsgSrc

/-- The `WorldState()` built with every argument left at its default. -/
def cWorldDefault : WorldState :=
  (WorldState.init none none none none none none).toOption.getD
    ⟨.null, .null, .null, .null, .null⟩

/-! ## Supporting lemmas -/

theorem dictGet_dictSet_self (d : Dict) (k : String) (v : JVal) :
    dictGet (dictSet d k v) k = some v := by
  induction d with
  | nil => simp [dictSet, dictGet]
  | cons p rest ih =>
    obtain ⟨k', v'⟩ := p
    by_cases h : k' = k
    · simp [dictSet, dictGet, h]
    · simp [dictSet, dictGet, h, ih]

theorem dictGet_dictSet_ne (d : Dict) (k k' : String) (v : JVal) (h : k' ≠ k) :
    dictGet (dictSet d k v) k' = dictGet d k' := by
  induction d with
  | nil => simp [dictSet, dictGet, Ne.symm h]
  | cons p rest ih =>
    obtain ⟨k0, v0⟩ := p
    by_cases h0 : k0 = k
    · subst h0
      simp [dictSet, dictGet, Ne.symm h]
    · simp [dictSet, dictGet, h0, ih]

/-! ## C9: message serialization round trip -/

/-- C9: for every constructed `BaseMessage`, `from_json (to_json m)` succeeds
and reproduces `sender`, `receiver`, `message_type` and `content` exactly;
only the constructor-assigned timestamp differs (it becomes the stamp of the
deserialization-time construction). -/
theorem C9_message_roundtrip (m : BaseMessage) (now : String) :
    BaseMessage.from_json m.to_json now =
      .ok { sender := m.sender, receiver := m.receiver,
            message_type := m.message_type, content := m.content,
            timestamp := now } := rfl

/-! ## C10: the discarded contribution metric -/

/-- C10: `BaseMessage.__init__` discards its `contribution_metric` argument
(two constructions differing only there are equal), so on a buffer of
`BaseMessage`s `filter_by_metric` compares the `getattr` fallback `0` with
`>=`: it returns `[]` for every threshold strictly above `0` and the whole
buffer for every threshold at most `0`. -/
theorem C10_contribution_metric_discarded :
    (∀ (s r t : String) (c : Dict) (v v' : ℚ) (now : String),
        BaseMessage.init s r t c v now = BaseMessage.init s r t c v' now) ∧
    (∀ (mm : MessageManager) (threshold : ℚ), 0 < threshold →
        mm.filter_by_metric threshold = []) ∧
    (∀ (mm : MessageManager) (threshold : ℚ), threshold ≤ 0 →
        mm.filter_by_metric threshold = mm.messages) := by
  refine ⟨fun _ _ _ _ _ _ _ => rfl, ?_, ?_⟩
  · intro mm threshold ht
    simp [MessageManager.filter_by_metric, BaseMessage.getattrContributionMetric,
      List.filter_eq_nil_iff, not_le.mpr ht]
  · intro mm threshold ht
    simp [MessageManager.filter_by_metric, BaseMessage.getattrContributionMetric, ht]

theorem C10_witness :
    (0 : ℚ) < 0.5 ∧ cMgr.filter_by_metric 0.5 = [] ∧
    (0 : ℚ) ≤ 0 ∧ cMgr.filter_by_metric 0 = cMgr.messages := by
  refine ⟨by norm_num, C10_contribution_metric_discarded.2.1 cMgr 0.5 (by norm_num),
    le_refl 0, C10_contribution_metric_discarded.2.2 cMgr 0 (le_refl 0)⟩

/-! ## C2: broadcast dissemination -/

/-- C2 (evaluation at the failing input): with `p = 1` over a one-agent
topology and a delivery draw below `p`, `broadcast_messages` raises
`TypeError` — the source constructs
`BaseMessage(sender="CentralNod", receiver=node, content=messagee.content)`,
omitting the required `message_type` parameter — appending nothing; with
`p = 0` it returns with the channel unchanged. -/
theorem C2_broadcast_eval :
    cNode1.broadcast_messages (fun _ => 0) cMsgSrc "t1" =
      .error "TypeError: BaseMessage.__init__ missing a required positional argument" ∧
    cNode0.broadcast_messages (fun _ => 0) cMsgSrc "t1" = .ok cNode0 :=
  ⟨rfl, rfl⟩

/-! ## C5: world-state serialization round trip -/

/-- C5 (evaluation at the failing input): the default-constructed
`WorldState` serializes fine, but deserializing the result raises
`TypeError`: `from_json` hands the persisted `base_network` dict to
`__init__`, which calls it as a function (`base_network(agent_list)`). -/
theorem C5_worldstate_roundtrip_eval :
    WorldState.init none none none none none none = .ok cWorldDefault ∧
    WorldState.from_json cWorldDefault.to_json =
      .error "TypeError: base_network object is not callable" :=
  ⟨rfl, rfl⟩

/-! ## Graph lemmas -/

theorem addNode_edges (g : DiGraph) (n : String) : (g.addNode n).edges = g.edges := by
  unfold DiGraph.addNode
  split <;> rfl

theorem add_nodes_from_edges (ns : List String) :
    ∀ g : DiGraph, (g.add_nodes_from ns).edges = g.edges := by
  induction ns with
  | nil => intro g; rfl
  | cons n rest ih =>
    intro g
    show (DiGraph.add_nodes_from (g.addNode n) rest).edges = g.edges
    rw [ih, addNode_edges]

theorem add_edge_edges (g : DiGraph) (s e : String) :
    (g.add_edge s e).edges =
      if (s, e) ∈ g.edges then g.edges else g.edges ++ [(s, e)] := by
  have h1 : ((g.addNode s).addNode e).edges = g.edges := by
    rw [addNode_edges, addNode_edges]
  simp only [DiGraph.add_edge, DiGraph.has_edge, h1]
  by_cases hm : (s, e) ∈ g.edges <;> simp [hm, h1]

theorem addNode_of_mem {g : DiGraph} {n : String} (h : n ∈ g.nodes) :
    g.addNode n = g := by
  simp [DiGraph.addNode, DiGraph.hasNode, h]

theorem mem_addNode (g : DiGraph) (n x : String) :
    x ∈ (g.addNode n).nodes ↔ x ∈ g.nodes ∨ x = n := by
  by_cases h : n ∈ g.nodes
  · rw [addNode_of_mem h]
    exact ⟨Or.inl, fun hx => hx.elim id (fun hh => hh ▸ h)⟩
  · simp [DiGraph.addNode, DiGraph.hasNode, h]

theorem mem_add_nodes_from (ns : List String) :
    ∀ (g : DiGraph) (x : String),
      x ∈ (g.add_nodes_from ns).nodes ↔ x ∈ g.nodes ∨ x ∈ ns := by
  induction ns with
  | nil => intro g x; simp [DiGraph.add_nodes_from]
  | cons n rest ih =>
    intro g x
    show x ∈ (DiGraph.add_nodes_from (g.addNode n) rest).nodes ↔ _
    rw [ih, mem_addNode]
    simp [List.mem_cons]
    tauto

theorem add_edge_nodes (g : DiGraph) (s e : String)
    (hs : s ∈ g.nodes) (he : e ∈ g.nodes) : (g.add_edge s e).nodes = g.nodes := by
  simp only [DiGraph.add_edge, addNode_of_mem hs, addNode_of_mem he]
  split <;> rfl

/-! ## C1: the no-bidirectional-pair invariant -/

theorem noBidirL_subset {es es' : List (String × String)}
    (hsub : ∀ x ∈ es', x ∈ es) (h : noBidirL es) : noBidirL es' :=
  fun e he hne hrev => h e (hsub e he) hne (hsub _ hrev)

theorem noBidirL_append {es : List (String × String)} {s e : String}
    (h : noBidirL es) (hrev : (e, s) ∉ es) : noBidirL (es ++ [(s, e)]) := by
  rintro ⟨a, b⟩ hx hne hrx
  simp only [List.mem_append, List.mem_singleton] at hx hrx
  rcases hx with hx | hx
  · rcases hrx with hrx | hrx
    · exact h (a, b) hx hne hrx
    · injection hrx with hb ha
      subst hb; subst ha
      exact hrev hx
  · injection hx with ha hb
    subst ha; subst hb
    rcases hrx with hrx | hrx
    · exact hrev hrx
    · injection hrx with h1 h2
      exact hne h1.symm

theorem noBidir_add_edge {g : DiGraph} {s e : String}
    (h : noBidir g) (hrev : (e, s) ∉ g.edges) : noBidir (g.add_edge s e) := by
  unfold noBidir
  rw [add_edge_edges]
  by_cases hm : (s, e) ∈ g.edges
  · simpa [hm] using h
  · simpa [hm] using noBidirL_append h hrev

theorem genLoop_noBidir (p : ℚ) (draws : ℕ → ℚ) :
    ∀ (pairs : List (String × String)) (g : DiGraph) (i : ℕ),
      noBidir g → noBidir (genLoop p draws pairs g i) := by
  intro pairs
  induction pairs with
  | nil => intro g i h; exact h
  | cons pr rest ih =>
    intro g i h
    obtain ⟨s, e⟩ := pr
    by_cases h1 : g.has_edge e s = true
    · simpa [genLoop, h1] using ih g i h
    · by_cases h2 : draws i ≤ p
      · have hrev : (e, s) ∉ g.edges := by
          simpa [DiGraph.has_edge] using h1
        simpa [genLoop, h1, h2] using
          ih (g.add_edge s e) (i + 1) (noBidir_add_edge h hrev)
      · simpa [genLoop, h1, h2] using ih g (i + 1) h

theorem init_noBidir (ids : List String) (p : ℚ) (draws : ℕ → ℚ) :
    noBidir (BaseNetwork.init ids p draws).graph := by
  have hbase : noBidir (DiGraph.empty.add_nodes_from ids) := by
    unfold noBidir noBidirL
    rw [add_nodes_from_edges]
    intro x hx
    cases hx
  exact genLoop_noBidir p draws (allOrderedPairs ids)
    (DiGraph.empty.add_nodes_from ids) 0 hbase

/-- C1 (amended): the no-bidirectional-pair invariant holds after
construction for every probability and every random stream, and is preserved
by `disconnect_edge`, by a successful `reverse_edge`, and by `connect_edge`
when the reverse of the requested edge is absent.  (As stated the claim
fails: `connect_edge` checks only the requested direction, so it creates a
bidirectional pair whenever the reverse edge exists — see the
counterexample.) -/
theorem C1_no_bidirectional_pairs :
    (∀ (ids : List String) (p : ℚ) (draws : ℕ → ℚ),
        noBidir (BaseNetwork.init ids p draws).graph) ∧
    (∀ (net : BaseNetwork) (s f : String), noBidir net.graph →
        noBidir (net.disconnect_edge s f).graph) ∧
    (∀ (net net' : BaseNetwork) (s f : String), noBidir net.graph →
        net.reverse_edge s f = .ok net' → noBidir net'.graph) ∧
    (∀ (net : BaseNetwork) (s f : String), noBidir net.graph →
        net.graph.has_edge f s = false → noBidir (net.connect_edge s f).graph) := by
  refine ⟨init_noBidir, ?_, ?_, ?_⟩
  · intro net s f h
    unfold BaseNetwork.disconnect_edge
    split
    · exact noBidirL_subset (fun x hx => (List.mem_filter.mp hx).1) h
    · exact h
  · intro net net' s f h hok
    unfold BaseNetwork.reverse_edge DiGraph.remove_edge at hok
    by_cases hmem : net.graph.has_edge s f = true
    · simp only [hmem, if_true, Except.map] at hok
      injection hok with hok
      rw [← hok]
      have hfilter : noBidirL (net.graph.edges.filter (fun p => p ≠ (s, f))) :=
        noBidirL_subset (fun x hx => (List.mem_filter.mp hx).1) h
      have hnotin : (s, f) ∉ net.graph.edges.filter (fun p => p ≠ (s, f)) := by
        simp [List.mem_filter]
      show noBidir (DiGraph.add_edge _ f s)
      unfold noBidir
      rw [add_edge_edges]
      split
      · exact hfilter
      · exact noBidirL_append hfilter hnotin
    · simp only [Bool.not_eq_true] at hmem
      simp [hmem, Except.map] at hok
  · intro net s f h hrev
    unfold BaseNetwork.connect_edge
    split
    · exact h
    · exact noBidir_add_edge h (by simpa [DiGraph.has_edge] using hrev)

/-- C1 counterexample: starting from an invariant-satisfying topology with
the single edge `a→b`, the mutation `connect_edge("b", "a")` yields both
`a→b` and `b→a` — the invariant does not hold after every mutation. -/
theorem C1_counterexample :
    noBidir cNetAB.graph ∧
    ("a", "b") ∈ (cNetAB.connect_edge "b" "a").graph.edges ∧
    ("b", "a") ∈ (cNetAB.connect_edge "b" "a").graph.edges ∧
    ¬ noBidir (cNetAB.connect_edge "b" "a").graph := by decide

theorem C1_witness :
    noBidir (cNetAB.disconnect_edge "a" "b").graph ∧
    noBidir (cNetAB.connect_edge "a" "c").graph ∧
    noBidir cNetRev.graph := by
  refine ⟨C1_no_bidirectional_pairs.2.1 cNetAB "a" "b" (by decide),
    C1_no_bidirectional_pairs.2.2.2 cNetAB "a" "c" (by decide) (by decide),
    C1_no_bidirectional_pairs.2.2.1 cNetAB cNetRev "a" "b" (by decide) rfl⟩

/-! ## C6: reverse_edge -/

/-- C6 (amended): for distinct `s`, `f`, when edge `s→f` exists
`reverse_edge` succeeds with `f→s` present and `s→f` absent, and when it
does not exist `reverse_edge` raises.  (As stated the claim fails only in
the degenerate `s = f` case: a self-loop — reachable via
`connect_edge(a, a)` — is removed and re-added, so the "edge absent
afterwards" part is violated; see the counterexample.) -/
theorem C6_reverse_edge (net : BaseNetwork) (s f : String) (hne : s ≠ f) :
    (net.graph.has_edge s f = true →
      ∃ net', net.reverse_edge s f = .ok net' ∧
        net'.graph.has_edge f s = true ∧ net'.graph.has_edge s f = false) ∧
    (net.graph.has_edge s f = false →
      net.reverse_edge s f = .error "NetworkXError: the edge is not in the graph") := by
  constructor
  · intro hmem
    unfold BaseNetwork.reverse_edge DiGraph.remove_edge
    simp only [hmem, if_true, Except.map]
    refine ⟨_, rfl, ?_, ?_⟩
    · show (DiGraph.add_edge _ f s).has_edge f s = true
      simp only [DiGraph.has_edge, add_edge_edges, decide_eq_true_eq]
      split
      · next hm => exact hm
      · exact List.mem_append.mpr (Or.inr (List.mem_singleton.mpr rfl))
    · show (DiGraph.add_edge _ f s).has_edge s f = false
      simp only [DiGraph.has_edge, add_edge_edges, decide_eq_false_iff_not]
      split
      · intro hin
        have := (List.mem_filter.mp hin).2
        simp at this
      · intro hin
        rcases List.mem_append.mp hin with hin | hin
        · have := (List.mem_filter.mp hin).2
          simp at this
        · have : (s, f) = (f, s) := List.mem_singleton.mp hin
          injection this with h1 h2
          exact hne h1
  · intro hmem
    unfold BaseNetwork.reverse_edge DiGraph.remove_edge
    simp [hmem, Except.map]

/-- C6 counterexample: on a reachable topology with the self-loop `a→a`,
`reverse_edge("a", "a")` succeeds and the edge `a→a` — which the claim, read
at the pair `(a, a)`, requires to be absent afterwards — is still present. -/
theorem C6_counterexample :
    cNetLoop.graph.has_edge "a" "a" = true ∧
    cNetLoop.reverse_edge "a" "a" = .ok cNetLoopRev ∧
    cNetLoopRev.graph.has_edge "a" "a" = true :=
  ⟨by decide, rfl, by decide⟩

theorem C6_witness :
    "a" ≠ "b" ∧
    (∃ net', cNetAB.reverse_edge "a" "b" = .ok net' ∧
      net'.graph.has_edge "b" "a" = true ∧ net'.graph.has_edge "a" "b" = false) ∧
    cNetEmpty.reverse_edge "a" "b" =
      .error "NetworkXError: the edge is not in the graph" := by
  refine ⟨by decide, (C6_reverse_edge cNetAB "a" "b" (by decide)).1 (by decide),
    (C6_reverse_edge cNetEmpty "a" "b" (by decide)).2 (by decide)⟩

/-! ## C8: the node set under edge operations -/

theorem enum_snd_mem {α : Type} {l : List α} {p : ℕ × α} (h : p ∈ l.enum) :
    p.2 ∈ l := by
  obtain ⟨i, x⟩ := p
  have h2 := List.mem_enum h
  rw [h2.2]
  exact List.getElem_mem h2.1

theorem mem_allOrderedPairs {l : List String} {pr : String × String}
    (h : pr ∈ allOrderedPairs l) : pr.1 ∈ l ∧ pr.2 ∈ l := by
  unfold allOrderedPairs at h
  rw [List.mem_flatten] at h
  obtain ⟨inner, hinner, hpr⟩ := h
  rw [List.mem_map] at hinner
  obtain ⟨a, ha, rfl⟩ := hinner
  rw [List.mem_filterMap] at hpr
  obtain ⟨b, hb, hab⟩ := hpr
  by_cases hidx : a.1 = b.1
  · simp [hidx] at hab
  · simp only [hidx, if_false] at hab
    injection hab with hab
    rw [← hab]
    exact ⟨enum_snd_mem ha, enum_snd_mem hb⟩

theorem genLoop_nodes (p : ℚ) (draws : ℕ → ℚ) :
    ∀ (pairs : List (String × String)) (g : DiGraph) (i : ℕ),
      (∀ pr ∈ pairs, pr.1 ∈ g.nodes ∧ pr.2 ∈ g.nodes) →
      (genLoop p draws pairs g i).nodes = g.nodes := by
  intro pairs
  induction pairs with
  | nil => intro g i _; rfl
  | cons pr rest ih =>
    intro g i hall
    obtain ⟨s, e⟩ := pr
    have hs := (hall (s, e) (List.mem_cons_self _ _)).1
    have he := (hall (s, e) (List.mem_cons_self _ _)).2
    have hrest : ∀ pr ∈ rest, pr.1 ∈ g.nodes ∧ pr.2 ∈ g.nodes :=
      fun pr hpr => hall pr (List.mem_cons_of_mem _ hpr)
    by_cases h1 : g.has_edge e s = true
    · simpa [genLoop, h1] using ih g i hrest
    · by_cases h2 : draws i ≤ p
      · have hnodes : (g.add_edge s e).nodes = g.nodes := add_edge_nodes g s e hs he
        have hrest' : ∀ pr ∈ rest, pr.1 ∈ (g.add_edge s e).nodes ∧
            pr.2 ∈ (g.add_edge s e).nodes := by
          intro pr hpr
          rw [hnodes]
          exact hrest pr hpr
        have := (ih (g.add_edge s e) (i + 1) hrest').trans hnodes
        simpa [genLoop, h1, h2] using this
      · simpa [genLoop, h1, h2] using ih g (i + 1) hrest

theorem init_nodes (ids : List String) (p : ℚ) (draws : ℕ → ℚ) (x : String) :
    x ∈ (BaseNetwork.init ids p draws).graph.nodes ↔ x ∈ ids := by
  have hprs : ∀ pr ∈ allOrderedPairs ids,
      pr.1 ∈ (DiGraph.empty.add_nodes_from ids).nodes ∧
      pr.2 ∈ (DiGraph.empty.add_nodes_from ids).nodes := by
    intro pr hpr
    have h := mem_allOrderedPairs hpr
    constructor <;> rw [mem_add_nodes_from] <;> simp [DiGraph.empty, h.1, h.2]
  show x ∈ (genLoop p draws (allOrderedPairs ids)
      (DiGraph.empty.add_nodes_from ids) 0).nodes ↔ x ∈ ids
  rw [genLoop_nodes p draws _ _ 0 hprs, mem_add_nodes_from]
  simp [DiGraph.empty]

theorem disconnect_nodes (net : BaseNetwork) (s f : String) :
    (net.disconnect_edge s f).graph.nodes = net.graph.nodes := by
  unfold BaseNetwork.disconnect_edge
  split <;> rfl

theorem reverse_nodes {net net' : BaseNetwork} {s f : String}
    (hs : s ∈ net.graph.nodes) (hf : f ∈ net.graph.nodes)
    (hok : net.reverse_edge s f = .ok net') :
    net'.graph.nodes = net.graph.nodes := by
  unfold BaseNetwork.reverse_edge DiGraph.remove_edge at hok
  by_cases hmem : net.graph.has_edge s f = true
  · simp only [hmem, if_true, Except.map] at hok
    injection hok with hok
    rw [← hok]
    exact add_edge_nodes _ f s hf hs
  · simp only [Bool.not_eq_true] at hmem
    simp [hmem, Except.map] at hok

theorem connect_nodes {net : BaseNetwork} {s f : String}
    (hs : s ∈ net.graph.nodes) (hf : f ∈ net.graph.nodes) :
    (net.connect_edge s f).graph.nodes = net.graph.nodes := by
  unfold BaseNetwork.connect_edge
  split
  · rfl
  · exact add_edge_nodes _ s f hs hf

theorem execute_nodes {net net' : BaseNetwork} {s f : String}
    {method : String → String → String → Bool} {action : String} {o : Option Bool}
    (hs : s ∈ net.graph.nodes) (hf : f ∈ net.graph.nodes)
    (hok : net.execute s f method action = .ok (o, net')) :
    net'.graph.nodes = net.graph.nodes := by
  unfold BaseNetwork.execute at hok
  by_cases hm : method s f action = true
  · by_cases ha1 : action = "reverse"
    · subst ha1
      simp only [hm, if_true] at hok
      cases hrv : net.reverse_edge s f with
      | error e => rw [hrv] at hok; simp [Except.map] at hok
      | ok r =>
        rw [hrv] at hok
        simp only [Except.map, Except.ok.injEq] at hok
        have hr : r = net' := congrArg Prod.snd hok
        rw [← hr]
        exact reverse_nodes hs hf hrv
    · by_cases ha2 : action = "disconnect"
      · subst ha2
        simp only [hm, ha1, if_true, if_false, Except.ok.injEq] at hok
        have hr : net.disconnect_edge s f = net' := congrArg Prod.snd hok
        rw [← hr]
        exact disconnect_nodes net s f
      · by_cases ha3 : action = "connect"
        · subst ha3
          simp only [hm, ha1, ha2, if_true, if_false, Except.ok.injEq] at hok
          have hr : net.connect_edge s f = net' := congrArg Prod.snd hok
          rw [← hr]
          exact connect_nodes hs hf
        · simp [hm, ha1, ha2, ha3] at hok
  · simp only [Bool.not_eq_true] at hm
    simp only [hm, Bool.false_eq_true, if_false, Except.ok.injEq] at hok
    have hr : net = net' := congrArg Prod.snd hok
    rw [← hr]

/-- C8 (amended): the node set of a freshly constructed topology is exactly
the agent-id list (as a set), and it is unchanged by `disconnect_edge`
always, and by `reverse_edge`, `connect_edge` and `execute` whenever the
argument identifiers are existing nodes.  (As stated the claim fails:
networkx `add_edge` silently registers unknown endpoints, so
`connect_edge` with a fresh identifier grows the node set — see the
counterexample.) -/
theorem C8_node_set :
    (∀ (ids : List String) (p : ℚ) (draws : ℕ → ℚ) (x : String),
        x ∈ (BaseNetwork.init ids p draws).graph.nodes ↔ x ∈ ids) ∧
    (∀ (net : BaseNetwork) (s f : String),
        (net.disconnect_edge s f).graph.nodes = net.graph.nodes) ∧
    (∀ (net net' : BaseNetwork) (s f : String), s ∈ net.graph.nodes →
        f ∈ net.graph.nodes → net.reverse_edge s f = .ok net' →
        net'.graph.nodes = net.graph.nodes) ∧
    (∀ (net : BaseNetwork) (s f : String), s ∈ net.graph.nodes →
        f ∈ net.graph.nodes →
        (net.connect_edge s f).graph.nodes = net.graph.nodes) ∧
    (∀ (net net' : BaseNetwork) (s f : String)
        (method : String → String → String → Bool) (action : String)
        (o : Option Bool), s ∈ net.graph.nodes → f ∈ net.graph.nodes →
        net.execute s f method action = .ok (o, net') →
        net'.graph.nodes = net.graph.nodes) :=
  ⟨init_nodes, disconnect_nodes,
   fun _ _ _ _ hs hf hok => reverse_nodes hs hf hok,
   fun _ _ _ hs hf => connect_nodes hs hf,
   fun _ _ _ _ _ _ _ hs hf hok => execute_nodes hs hf hok⟩

/-- C8 counterexample: `connect_edge` called with identifiers outside the
original agent set adds them to the node set instead of leaving it
unchanged. -/
theorem C8_counterexample :
    "b" ∉ cNetA.graph.nodes ∧
    "b" ∈ (cNetA.connect_edge "b" "c").graph.nodes ∧
    "c" ∈ (cNetA.connect_edge "b" "c").graph.nodes := by decide

theorem C8_witness :
    ("a" ∈ cNetEmpty.graph.nodes ↔ "a" ∈ ["a", "b"]) ∧
    cNetRev.graph.nodes = cNetAB.graph.nodes ∧
    (cNetAB.connect_edge "b" "a").graph.nodes = cNetAB.graph.nodes ∧
    (cNetAB.disconnect_edge "a" "b").graph.nodes = cNetAB.graph.nodes := by
  refine ⟨C8_node_set.1 ["a", "b"] 0 (fun _ => 1) "a",
    C8_node_set.2.2.1 cNetAB cNetRev "a" "b" (by decide) (by decide) rfl,
    C8_node_set.2.2.2.1 cNetAB "b" "a" (by decide) (by decide),
    C8_node_set.2.2.2.2 cNetAB (cNetAB.disconnect_edge "a" "b") "a" "b"
      (fun _ _ _ => true) "disconnect" (some true) (by decide) (by decide) rfl⟩

/-! ## C4: the gated mutation entry point -/

/-- C4 (amended): `execute` applies the corresponding mutation exactly when
the agreement predicate returns true for the `(start, fin, action)` triple;
it reports `True` for an applied connect or disconnect and `False` when the
predicate declines, but forwards `None` — not `True` — for an applied
reverse; an unrecognized action raises `ValueError` only when the predicate
approves (when it declines the call just returns `False`); and with an
always-false predicate any sequence of `execute` calls leaves the topology
unchanged. -/
theorem C4_execute_gating :
    (∀ (net : BaseNetwork) (s f : String)
        (method : String → String → String → Bool) (action : String),
        method s f action = false →
        net.execute s f method action = .ok (some false, net)) ∧
    (∀ (net : BaseNetwork) (s f : String)
        (method : String → String → String → Bool),
        method s f "reverse" = true →
        net.execute s f method "reverse" =
          (net.reverse_edge s f).map (fun net' => (none, net'))) ∧
    (∀ (net : BaseNetwork) (s f : String)
        (method : String → String → String → Bool),
        method s f "disconnect" = true →
        net.execute s f method "disconnect" =
          .ok (some true, net.disconnect_edge s f)) ∧
    (∀ (net : BaseNetwork) (s f : String)
        (method : String → String → String → Bool),
        method s f "connect" = true →
        net.execute s f method "connect" =
          .ok (some true, net.connect_edge s f)) ∧
    (∀ (net : BaseNetwork) (s f : String)
        (method : String → String → String → Bool) (action : String),
        method s f action = true → action ≠ "reverse" →
        action ≠ "disconnect" → action ≠ "connect" →
        net.execute s f method action =
          .error ("ValueError: Unknown action: " ++ action)) ∧
    (∀ (net : BaseNetwork) (calls : List (String × String × String)),
        net.executeSeq (fun _ _ _ => false) calls = .ok net) := by
  refine ⟨?_, ?_, ?_, ?_, ?_, ?_⟩
  · intro net s f method action h
    simp [BaseNetwork.execute, h]
  · intro net s f method h
    simp [BaseNetwork.execute, h]
  · intro net s f method h
    simp [BaseNetwork.execute, h]
  · intro net s f method h
    simp [BaseNetwork.execute, h]
  · intro net s f method action h h1 h2 h3
    simp [BaseNetwork.execute, h, h1, h2, h3]
  · intro net calls
    induction calls generalizing net with
    | nil => rfl
    | cons c rest ih =>
      obtain ⟨s, f, a⟩ := c
      exact ih net

/-- C4 counterexample: with an always-approving predicate and an existing
edge `a→b`, the action `reverse` is applied (the result has `b→a`) yet the
reported value is `None` rather than `True`. -/
theorem C4_counterexample :
    cNetAB.graph.has_edge "a" "b" = true ∧
    (cNetAB.execute "a" "b" (fun _ _ _ => true) "reverse").map Prod.fst =
      .ok none ∧
    (cNetAB.execute "a" "b" (fun _ _ _ => true) "reverse").map
      (fun r => r.2.graph.has_edge "b" "a") = .ok true :=
  ⟨by decide, rfl, rfl⟩

theorem C4_witness :
    cNetAB.execute "a" "b" (fun _ _ _ => false) "connect" =
      .ok (some false, cNetAB) ∧
    cNetAB.execute "a" "b" (fun _ _ _ => true) "reverse" =
      (cNetAB.reverse_edge "a" "b").map (fun net' => (none, net')) ∧
    cNetAB.execute "a" "b" (fun _ _ _ => true) "disconnect" =
      .ok (some true, cNetAB.disconnect_edge "a" "b") ∧
    cNetAB.execute "a" "b" (fun _ _ _ => true) "connect" =
      .ok (some true, cNetAB.connect_edge "a" "b") ∧
    cNetAB.execute "a" "b" (fun _ _ _ => true) "fly" =
      .error ("ValueError: Unknown action: " ++ "fly") ∧
    cNetAB.executeSeq (fun _ _ _ => false)
      [("a", "b", "reverse"), ("b", "a", "connect")] = .ok cNetAB :=
  ⟨C4_execute_gating.1 cNetAB "a" "b" (fun _ _ _ => false) "connect" rfl,
   C4_execute_gating.2.1 cNetAB "a" "b" (fun _ _ _ => true) rfl,
   C4_execute_gating.2.2.1 cNetAB "a" "b" (fun _ _ _ => true) rfl,
   C4_execute_gating.2.2.2.1 cNetAB "a" "b" (fun _ _ _ => true) rfl,
   C4_execute_gating.2.2.2.2.1 cNetAB "a" "b" (fun _ _ _ => true) "fly" rfl
     (by decide) (by decide) (by decide),
   C4_execute_gating.2.2.2.2.2 cNetAB [("a", "b", "reverse"), ("b", "a", "connect")]⟩

/-! ## C3: cherry-picking commits -/

theorem cherryLoop_ok (ms : List BaseMessage) :
    ∀ c : Chain,
      (∀ m ∈ ms, ∃ q : ℚ, dictGet m.content "importance" = some (.num q)) →
      cherryLoop c ms = .ok { blocks := c.blocks ++ ms.filter importanceAbove } := by
  induction ms with
  | nil => intro c _; simp [cherryLoop]
  | cons m rest ih =>
    intro c hall
    obtain ⟨q, hq⟩ := hall m (List.mem_cons_self _ _)
    have hrest : ∀ m' ∈ rest, ∃ q : ℚ,
        dictGet m'.content "importance" = some (.num q) :=
      fun m' hm' => hall m' (List.mem_cons_of_mem _ hm')
    have hia : importanceAbove m = decide (q > 0.5) := by
      simp [importanceAbove, hq]
    simp only [cherryLoop, hq]
    by_cases hgt : q > 0.5
    · rw [if_pos hgt, ih (c.add_block m) hrest]
      simp [Chain.add_block, List.filter_cons, hia, hgt]
    · rw [if_neg hgt, ih c hrest]
      simp [List.filter_cons, hia, hgt]

/-- C3: when every buffered message carries a numeric importance score (the
state the pipeline produces before cherry-picking), `cherrypick_messages`
succeeds, extends the chain by exactly the buffered messages whose
importance strictly exceeds `0.5`, in buffered order, and leaves every
buffered message — qualifying or not — in the broadcast channel, touching
nothing else on the node. -/
theorem C3_cherrypick_commits (n : Node)
    (h : ∀ m ∈ n.broadcast.messages, ∃ q : ℚ,
        dictGet m.content "importance" = some (.num q)) :
    n.cherrypick_messages = .ok { n with chain :=
      { blocks := n.chain.blocks ++ n.broadcast.messages.filter importanceAbove } } := by
  unfold Node.cherrypick_messages
  rw [cherryLoop_ok n.broadcast.messages n.chain h]
  rfl

theorem C3_witness :
    (∀ m ∈ cNodeEval.broadcast.messages, ∃ q : ℚ,
        dictGet m.content "importance" = some (.num q)) ∧
    cNodeEval.cherrypick_messages = .ok { cNodeEval with chain :=
      { blocks := cNodeEval.chain.blocks ++
          cNodeEval.broadcast.messages.filter importanceAbove } } := by
  have hyp : ∀ m ∈ cNodeEval.broadcast.messages, ∃ q : ℚ,
      dictGet m.content "importance" = some (.num q) := by
    intro m hm
    have : m = cMsgHigh ∨ m = cMsgLow := by simpa [cNodeEval] using hm
    rcases this with rfl | rfl
    · exact ⟨0.9, rfl⟩
    · exact ⟨0.4, rfl⟩
  exact ⟨hyp, C3_cherrypick_commits cNodeEval hyp⟩

/-! ## C7: evaluation scores every buffered message -/

/-- C7: `evaluate_messages` preserves the buffer length and, for each
buffered position, writes the collaborator score of the old content under
the key `"importance"` while every other content key and every other
message field are unchanged; the chain and the topology — everything
outside the buffer — are untouched. -/
theorem C7_evaluate_sets_importance (n : Node) (ev : Dict → ℚ) :
    (n.evaluate_messages ev).broadcast.messages.length =
      n.broadcast.messages.length ∧
    (∀ (i : ℕ) (h : i < (n.evaluate_messages ev).broadcast.messages.length)
        (h' : i < n.broadcast.messages.length),
      dictGet ((n.evaluate_messages ev).broadcast.messages.get ⟨i, h⟩).content
          "importance" =
        some (.num (ev (n.broadcast.messages.get ⟨i, h'⟩).content)) ∧
      (∀ k, k ≠ "importance" →
        dictGet ((n.evaluate_messages ev).broadcast.messages.get ⟨i, h⟩).content k =
          dictGet (n.broadcast.messages.get ⟨i, h'⟩).content k) ∧
      ((n.evaluate_messages ev).broadcast.messages.get ⟨i, h⟩).sender =
        (n.broadcast.messages.get ⟨i, h'⟩).sender ∧
      ((n.evaluate_messages ev).broadcast.messages.get ⟨i, h⟩).receiver =
        (n.broadcast.messages.get ⟨i, h'⟩).receiver ∧
      ((n.evaluate_messages ev).broadcast.messages.get ⟨i, h⟩).message_type =
        (n.broadcast.messages.get ⟨i, h'⟩).message_type ∧
      ((n.evaluate_messages ev).broadcast.messages.get ⟨i, h⟩).timestamp =
        (n.broadcast.messages.get ⟨i, h'⟩).timestamp) ∧
    (n.evaluate_messages ev).chain = n.chain ∧
    (n.evaluate_messages ev).base_network = n.base_network := by
  refine ⟨?_, ?_, rfl, rfl⟩
  · show (n.broadcast.messages.map _).length = _
    rw [List.length_map]
  · intro i h h'
    have hget : (n.evaluate_messages ev).broadcast.messages.get ⟨i, h⟩ =
        { (n.broadcast.messages.get ⟨i, h'⟩) with
          content := dictSet (n.broadcast.messages.get ⟨i, h'⟩).content "importance"
            (.num (ev (n.broadcast.messages.get ⟨i, h'⟩).content)) } := by
      show (List.map _ n.broadcast.messages).get ⟨i, h⟩ = _
      rw [List.get_eq_getElem, List.getElem_map, List.get_eq_getElem]
    rw [hget]
    exact ⟨dictGet_dictSet_self _ _ _, fun k hk => dictGet_dictSet_ne _ _ _ _ hk,
      rfl, rfl, rfl, rfl⟩

theorem C7_witness :
    (0 < (cNodeEval.evaluate_messages cEval).broadcast.messages.length) ∧
    (0 < cNodeEval.broadcast.messages.length) ∧
    dictGet ((cNodeEval.evaluate_messages cEval).broadcast.messages.get
        ⟨0, by decide⟩).content "importance" =
      some (.num (cEval (cNodeEval.broadcast.messages.get ⟨0, by decide⟩).content)) ∧
    ("text" ≠ "importance") ∧
    dictGet ((cNodeEval.evaluate_messages cEval).broadcast.messages.get
        ⟨0, by decide⟩).content "text" =
      dictGet (cNodeEval.broadcast.messages.get ⟨0, by decide⟩).content "text" ∧
    (cNodeEval.evaluate_messages cEval).chain = cNodeEval.chain := by
  have H := C7_evaluate_sets_importance cNodeEval cEval
  exact ⟨by decide, by decide, (H.2.1 0 (by decide) (by decide)).1, by decide,
    (H.2.1 0 (by decide) (by decide)).2.1 "text" (by decide), H.2.2.1⟩

end NarrativeSphere
